import Mathlib

/-!
# Wallet_Assistant: voice-to-intent pipeline and transfer confirmation flow

Shallow embedding of

* `frontend/src/App.jsx` (conversation log, pending-transaction slot,
  `handleVoiceCommand`, `handleTransactionDetected`, `handleTransactionConfirm`,
  `handleTransactionCancel`, the `onClose` handler and the conditional mount of
  the confirmation modal),
* `frontend/src/components/TransactionConfirm.jsx` (`handleConfirm`, the two
  views and the `disabled` attributes of the buttons),
* `frontend/src/components/VoiceCommand.jsx` (the dispatching `useEffect` and
  `handleProcessCommand`),
* `frontend/src/hooks/useVoiceRecognition.js` (`onstart`, `onresult`, `onerror`,
  `onend`, `startListening` with the callback it passes to `setTimeout`,
  `stopListening`, `resetTranscript`).

Conventions of the embedding.

* React state cells (`useState`) are record fields; a handler is a function
  from the state before to the state after.
* An `async` handler is cut at its `await`: one function for the part that runs
  up to the `fetch` call (it records the request in a trace), one for the part
  that runs when the awaited `fetch(...)`/`response.json()` settles.
* JavaScript numbers are rationals.  The only arithmetic the code performs on
  them is the comparison `confidence > 0.6`; for IEEE doubles other than NaN
  that comparison agrees with the comparison of the represented rationals
  against `6/10`, because the double nearest to `0.6` lies below `6/10` and no
  double lies strictly between the two.
* `id: Date.now()` and `timestamp: new Date()` of conversation entries read the
  wall clock and are left out of `Message`.
-/

namespace WalletAssistant

/-! ## Data model -/

/-- The `transfer` object of a classifier response: `{ amount, token, recipient }`. -/
structure TransferPayload where
  amount : Rat
  token : String
  recipient : String
  deriving DecidableEq, Repr

/-- The object held in `pendingTransaction`:
`{ ...transactionData, voiceCommand: voiceCommand }`. -/
structure TransferIntent where
  amount : Rat
  token : String
  recipient : String
  voiceCommand : String
  deriving DecidableEq, Repr

/-- The object held in `txResult`: `{ success, txHash }` on success,
`{ success: false, error }` on failure.  A field that the object literal does
not set is `none`. -/
structure TransactionOutcome where
  success : Bool
  txHash : Option String
  error : Option String
  deriving DecidableEq, Repr

/-- The `type` field of a conversation entry. -/
inductive MessageType where
  | user
  | assistant
  | system
  deriving DecidableEq, Repr

/-- A conversation entry.  `text` is `none` when the JavaScript value is
`undefined` (for instance `result.message` of a response without a message). -/
structure Message where
  text : Option String
  type : MessageType
  isVoice : Bool := false
  isSuccess : Bool := false
  isError : Bool := false
  deriving DecidableEq, Repr

/-- A JSON scalar of a request body. -/
inductive JsonValue where
  | number (n : Rat)
  | string (s : String)
  | bool (b : Bool)
  deriving DecidableEq, Repr

/-- A `fetch(url, { method: 'POST', body: JSON.stringify({...}) })` call; the
body is the list of the object literal's keys with their values, in order. -/
structure HttpRequest where
  url : String
  body : List (String × JsonValue)
  deriving DecidableEq, Repr

/-- What `await fetch(...)` followed by `await response.json()` yields.
`rejected m`: `fetch` rejected with an error whose `message` is `m`.
`responded status body`: `fetch` resolved with HTTP status `status`; `body` is
the parsed JSON, or `Except.error m` when `response.json()` rejected with an
error whose `message` is `m`. -/
inductive FetchOutcome (β : Type) where
  | rejected (message : String)
  | responded (status : Nat) (body : Except String β)

/-- The JSON of a `/api/send-crypto` response as the code reads it:
`result.success`, `result.message`, `result.txHash`. -/
structure SubmissionResponse where
  success : Bool
  message : Option String
  txHash : Option String
  deriving DecidableEq, Repr

/-- JavaScript `a || b` for an optional string `a` and a string `b`: `a` when it
is a non-empty string, `b` when it is `undefined` or `''`. -/
def orElse (a : Option String) (b : String) : String :=
  match a with
  | some s => if s = "" then b else s
  | none => b

/-! ## `App.jsx` and `TransactionConfirm.jsx`: the confirmation flow -/

/-- The state of `App` that the confirmation flow touches, together with the
state of the mounted `TransactionConfirm` and the trace of submission calls.

`isProcessing` and `txResult` belong to `TransactionConfirm`, which `App`
mounts only while `pendingTransaction` is non-null; when it is unmounted its
state is discarded and the next mount starts from `useState(false)` and
`useState(null)` again (see `unmount`). -/
structure AppState where
  pendingTransaction : Option TransferIntent
  messages : List Message
  isProcessing : Bool
  txResult : Option TransactionOutcome
  requests : List HttpRequest
  deriving DecidableEq, Repr

/-- The first conversation entry, `useState([{ ... type: 'system' }])`. -/
def welcomeMessage : Message :=
  { text := some "Welcome to ZapBase! Your AI-powered crypto wallet. Try speaking a command like 'Send 0.005 ETH to annie.base.eth'",
    type := MessageType.system }

/-- The state of `App` after its first render. -/
def initialState : AppState :=
  { pendingTransaction := none
    messages := [welcomeMessage]
    isProcessing := false
    txResult := none
    requests := [] }

/-- `handleVoiceCommand(response, originalCommand)`. -/
def handleVoiceCommand (s : AppState) (response : Option String) (originalCommand : String) :
    AppState :=
  { s with
    messages := (s.messages ++ [{ text := some originalCommand, type := MessageType.user, isVoice := true }])
      ++ [{ text := response, type := MessageType.assistant }] }

/-- `handleTransactionDetected(transactionData, voiceCommand)`. -/
def handleTransactionDetected (s : AppState) (transactionData : TransferPayload)
    (voiceCommand : String) : AppState :=
  { s with
    messages := s.messages ++ [{ text := some voiceCommand, type := MessageType.user, isVoice := true }]
    pendingTransaction := some
      { amount := transactionData.amount
        token := transactionData.token
        recipient := transactionData.recipient
        voiceCommand := voiceCommand } }

/-- The request that `handleTransactionConfirm(transaction)` passes to `fetch`. -/
def sendCryptoRequest (transaction : TransferIntent) : HttpRequest :=
  { url := "/api/send-crypto"
    body := [("amount", JsonValue.number transaction.amount),
             ("token", JsonValue.string transaction.token),
             ("recipient", JsonValue.string transaction.recipient)] }

/-- The entry that the `catch` block of `handleTransactionConfirm` appends. -/
def failureMessage (errorMessage : String) : Message :=
  { text := some ("Transaction failed: " ++ errorMessage), type := MessageType.assistant, isError := true }

/-- The part of `handleTransactionConfirm` after `await fetch(...)`: the
conversation log it leaves and what the returned promise settles to,
`Except.ok` for `return { success: true, txHash }` and `Except.error m` for
`throw error` with `error.message = m`. -/
def handleTransactionConfirm (messages : List Message) (outcome : FetchOutcome SubmissionResponse) :
    List Message × Except String TransactionOutcome :=
  match outcome with
  | FetchOutcome.rejected m => (messages ++ [failureMessage m], Except.error m)
  | FetchOutcome.responded _ (Except.error m) => (messages ++ [failureMessage m], Except.error m)
  | FetchOutcome.responded _ (Except.ok result) =>
    if result.success then
      (messages ++ [{ text := result.message, type := MessageType.assistant, isSuccess := true }],
        Except.ok { success := true, txHash := result.txHash, error := none })
    else
      let m := orElse result.message "Transaction failed"
      (messages ++ [failureMessage m], Except.error m)

/-- React discards the state of `TransactionConfirm` when `pendingTransaction`
becomes null. -/
def unmount (s : AppState) : AppState :=
  { s with pendingTransaction := none, isProcessing := false, txResult := none }

/-- `handleTransactionCancel()`. -/
def handleTransactionCancel (s : AppState) : AppState :=
  unmount { s with messages := s.messages ++ [{ text := some "Transaction cancelled.", type := MessageType.assistant }] }

/-- `onClose={() => setPendingTransaction(null)}`. -/
def onClose (s : AppState) : AppState :=
  unmount s

/-- `handleConfirm` up to `await onConfirm(transaction)`: `setIsProcessing(true)`
and the `fetch` call of `handleTransactionConfirm`. -/
def handleConfirm (s : AppState) (transaction : TransferIntent) : AppState :=
  { s with isProcessing := true, requests := s.requests ++ [sendCryptoRequest transaction] }

/-- `handleConfirm` from the point where `onConfirm(transaction)` settles:
`setTxResult(result)` or `setTxResult({ success: false, error: error.message })`,
then `setIsProcessing(false)`. -/
def handleConfirmSettled (s : AppState) (outcome : FetchOutcome SubmissionResponse) : AppState :=
  match handleTransactionConfirm s.messages outcome with
  | (messages, Except.ok result) =>
    { s with messages := messages, txResult := some result, isProcessing := false }
  | (messages, Except.error m) =>
    { s with messages := messages
             txResult := some { success := false, txHash := none, error := some m }
             isProcessing := false }

/-- The states of the flow, read off the render of `App` and `TransactionConfirm`:
no modal, the confirm view with enabled buttons, the confirm view with disabled
buttons, the result view. -/
inductive FlowPhase where
  | none
  | pending
  | submitting
  | resolved (success : Bool)
  deriving DecidableEq, Repr

/-- Which view is rendered: `pendingTransaction &&`, then `if (txResult)`, then
`disabled={isProcessing}`. -/
def phase (s : AppState) : FlowPhase :=
  match s.pendingTransaction with
  | Option.none => FlowPhase.none
  | some _ =>
    match s.txResult with
    | some r => FlowPhase.resolved r.success
    | Option.none => if s.isProcessing then FlowPhase.submitting else FlowPhase.pending

/-- The steps of the confirmation flow. -/
inductive FlowEvent where
  | intentReceived (transactionData : TransferPayload) (voiceCommand : String)
  | clickCancel
  | clickConfirm
  | submissionSettles (outcome : FetchOutcome SubmissionResponse)
  | clickClose
  | render

/-- One step.  A click reaches its handler only when the button is rendered and
not disabled; a submission can settle only while one is awaited, which is
exactly while `isProcessing` is true. -/
def step (s : AppState) : FlowEvent → AppState
  | FlowEvent.intentReceived transactionData voiceCommand =>
    handleTransactionDetected s transactionData voiceCommand
  | FlowEvent.clickCancel =>
    match phase s with
    | FlowPhase.pending => handleTransactionCancel s
    | _ => s
  | FlowEvent.clickConfirm =>
    match s.pendingTransaction, phase s with
    | some transaction, FlowPhase.pending => handleConfirm s transaction
    | _, _ => s
  | FlowEvent.submissionSettles outcome =>
    if s.isProcessing then handleConfirmSettled s outcome else s
  | FlowEvent.clickClose =>
    match phase s with
    | FlowPhase.resolved _ => onClose s
    | _ => s
  | FlowEvent.render => s

/-- The state after a sequence of steps. -/
def run (s : AppState) (events : List FlowEvent) : AppState :=
  events.foldl step s

/-- The modal stays mounted through the whole sequence: no step of it leaves
`pendingTransaction` null. -/
def staysMounted : AppState → List FlowEvent → Bool
  | _, [] => true
  | s, e :: es => (step s e).pendingTransaction.isSome && staysMounted (step s e) es

/-- How many submission calls the mounted modal can still issue: one while the
confirm button is enabled (`isProcessing` false and no `txResult`), none after. -/
def confirmsLeft (s : AppState) : Nat :=
  if s.isProcessing = false ∧ s.txResult = none then 1 else 0

/-- The shape that every state reached from `initialState` has: without a
pending transaction the modal state is at its initial values, and a stored
result means no submission is awaited. -/
def WellFormed (s : AppState) : Prop :=
  (s.pendingTransaction = none → s.isProcessing = false ∧ s.txResult = none) ∧
  (s.txResult ≠ none → s.isProcessing = false)

/-! ## Scenario A of the specification -/

/-- The transfer payload of scenario A. -/
def scenarioTransfer : TransferPayload :=
  { amount := 0.005, token := "ETH", recipient := "annie.base.eth" }

/-- The utterance of scenario A. -/
def scenarioUtterance : String := "Send 0.005 ETH to annie.base.eth"

/-- Scenario A after the classifier's transfer payload has been delivered. -/
def scenarioPending : AppState :=
  step initialState (FlowEvent.intentReceived scenarioTransfer scenarioUtterance)

/-- Scenario A after the user has clicked confirm. -/
def scenarioSubmitting : AppState :=
  step scenarioPending FlowEvent.clickConfirm

/-- Scenario A after the submission endpoint has answered
`{success: true, txHash: "0xabc"}`. -/
def scenarioResolved : AppState :=
  step scenarioSubmitting
    (FlowEvent.submissionSettles
      (FetchOutcome.responded 200
        (Except.ok { success := true, message := none, txHash := some "0xabc" })))

/-! ## `VoiceCommand.jsx`: the command dispatcher -/

/-- The code points that `String.prototype.trim` strips: ECMAScript WhiteSpace
(tab, vertical tab, form feed, space, no-break space, byte-order mark and the
Unicode space separators) and LineTerminator (LF, CR, U+2028, U+2029). -/
def isJsWhitespace (c : Char) : Bool :=
  let n := c.toNat
  n = 0x09 || n = 0x0A || n = 0x0B || n = 0x0C || n = 0x0D || n = 0x20 || n = 0xA0 ||
  n = 0x1680 || (0x2000 ≤ n && n ≤ 0x200A) || n = 0x2028 || n = 0x2029 || n = 0x202F ||
  n = 0x205F || n = 0x3000 || n = 0xFEFF

/-- JavaScript `s.trim()`. -/
def jsTrim (s : String) : String :=
  String.mk ((s.toList.dropWhile isJsWhitespace).reverse.dropWhile isJsWhitespace).reverse

/-- The JSON of a `/api/voice-command` response as the code reads it:
`result.success`, `result.message`, `result.transfer`. -/
structure ClassifierResponse where
  success : Bool
  message : Option String
  transfer : Option TransferPayload
  deriving DecidableEq, Repr

/-- A call of one of the two props of `VoiceCommand`. -/
inductive CallbackCall where
  | onCommand (response : Option String) (originalCommand : String)
  | onTransactionDetected (transfer : TransferPayload) (command : String)
  deriving DecidableEq, Repr

/-- The state of `VoiceCommand` (`isProcessing`, `lastCommand`) with the trace
of classification calls it issued and of the callbacks it invoked. -/
structure VoiceCommandState where
  isProcessing : Bool
  lastCommand : String
  requests : List HttpRequest
  calls : List CallbackCall
  deriving DecidableEq, Repr

/-- The request that `handleProcessCommand(command)` passes to `fetch`. -/
def voiceCommandRequest (command : String) (confidence : Rat) : HttpRequest :=
  { url := "/api/voice-command"
    body := [("text", JsonValue.string command),
             ("confidence", JsonValue.number confidence),
             ("isVoiceInput", JsonValue.bool true)] }

/-- `handleProcessCommand(command)` up to `await fetch(...)`; `confidence` is
the value of the hook's `confidence` in the render that created the closure. -/
def handleProcessCommand (st : VoiceCommandState) (command : String) (confidence : Rat) :
    VoiceCommandState :=
  if jsTrim command = "" then st
  else
    { st with
      isProcessing := true
      lastCommand := command
      requests := st.requests ++ [voiceCommandRequest command confidence] }

/-- The body of the `useEffect` on `[transcript, isListening, confidence, lastCommand]`. -/
def dispatchEffect (st : VoiceCommandState) (transcript : String) (isListening : Bool)
    (confidence : Rat) : VoiceCommandState :=
  if transcript ≠ "" ∧ isListening = false ∧ confidence > 0.6 ∧ transcript ≠ st.lastCommand then
    handleProcessCommand st transcript confidence
  else st

/-- The text of the `catch` block of `handleProcessCommand`. -/
def dispatchErrorText : String := "Sorry, there was an error processing your voice command."

/-- The fallback text of the `success = false` branch of `handleProcessCommand`. -/
def defaultApology : String := "Sorry, I couldn't process that command."

/-- The callback that `handleProcessCommand(command)` invokes once the awaited
`fetch(...)`/`response.json()` settles. -/
def classifierCallback (command : String) (outcome : FetchOutcome ClassifierResponse) :
    CallbackCall :=
  match outcome with
  | FetchOutcome.rejected _ => CallbackCall.onCommand (some dispatchErrorText) command
  | FetchOutcome.responded _ (Except.error _) =>
    CallbackCall.onCommand (some dispatchErrorText) command
  | FetchOutcome.responded _ (Except.ok result) =>
    if result.success then
      match result.transfer with
      | some transfer => CallbackCall.onTransactionDetected transfer command
      | none => CallbackCall.onCommand result.message command
    else
      CallbackCall.onCommand (some (orElse result.message defaultApology)) command

/-- `handleProcessCommand(command)` from the point where the classification
call settles: one callback, then `setIsProcessing(false)`. -/
def handleProcessCommandSettled (st : VoiceCommandState) (command : String)
    (outcome : FetchOutcome ClassifierResponse) : VoiceCommandState :=
  { st with calls := st.calls ++ [classifierCallback command outcome], isProcessing := false }

/-- The wiring in `App`: `onCommand={handleVoiceCommand}` and
`onTransactionDetected={handleTransactionDetected}`. -/
def deliver (s : AppState) : CallbackCall → AppState
  | CallbackCall.onCommand response originalCommand => handleVoiceCommand s response originalCommand
  | CallbackCall.onTransactionDetected transfer command =>
    handleTransactionDetected s transfer command

/-! ## `useVoiceRecognition.js`: the capture session -/

/-- One entry of `event.results` as `onresult` reads it:
`results[i][0].transcript`, `results[i][0].confidence`, `results[i].isFinal`. -/
structure SpeechResult where
  transcript : String
  confidence : Rat
  isFinal : Bool
  deriving DecidableEq, Repr

/-- A `result` event of the recognition object. -/
structure SpeechEvent where
  resultIndex : Nat
  results : List SpeechResult
  deriving DecidableEq, Repr

/-- The state cells of the `useVoiceRecognition` hook. -/
structure VoiceRecognitionState where
  isListening : Bool
  transcript : String
  error : Option String
  isSupported : Bool
  confidence : Rat
  deriving DecidableEq, Repr

/-- The variables of the `for` loop of `onresult`: the two local strings and
the value last passed to `setConfidence`. -/
structure ResultLoop where
  finalTranscript : String
  interimTranscript : String
  confidence : Rat
  deriving DecidableEq, Repr

/-- One iteration of the `for` loop of `onresult`. -/
def resultLoopBody (acc : ResultLoop) (r : SpeechResult) : ResultLoop :=
  if r.isFinal then
    { acc with finalTranscript := acc.finalTranscript ++ r.transcript, confidence := r.confidence }
  else
    { acc with interimTranscript := acc.interimTranscript ++ r.transcript }

/-- The `for` loop of `onresult`, from `i = event.resultIndex` to the end of
`event.results`. -/
def resultLoop (confidence : Rat) (event : SpeechEvent) : ResultLoop :=
  (event.results.drop event.resultIndex).foldl resultLoopBody
    { finalTranscript := "", interimTranscript := "", confidence := confidence }

/-- `recognition.current.onresult(event)`; the last statement is
`setTranscript(finalTranscript || interimTranscript)`. -/
def onresult (st : VoiceRecognitionState) (event : SpeechEvent) : VoiceRecognitionState :=
  let acc := resultLoop st.confidence event
  { st with
    confidence := acc.confidence
    transcript := if acc.finalTranscript = "" then acc.interimTranscript else acc.finalTranscript }

/-- The concatenation, in order, of the transcripts of a list of results. -/
def concatTranscripts : List SpeechResult → String
  | [] => ""
  | r :: rs => r.transcript ++ concatTranscripts rs

/-- The results of a list that are marked final. -/
def finalResults (results : List SpeechResult) : List SpeechResult :=
  results.filter (fun r => r.isFinal)

/-- The results of a list that are not marked final. -/
def interimResults (results : List SpeechResult) : List SpeechResult :=
  results.filter (fun r => !r.isFinal)

/-! ### The hook with its refs: `recognition`, `timeoutRef` and the timers -/

/-- A method call on the recognition object held in `recognition.current`. -/
inductive RecognitionCall where
  | start
  | stop
  deriving DecidableEq, Repr

/-- A pending `setTimeout` of `startListening`: the handle that `setTimeout`
returned, the delay in milliseconds, and the value of the variable
`isListening` that the callback closes over.  The callback is written inside
`startListening`, so its `isListening` is the constant of the render that
created that `startListening`. -/
structure Timeout where
  handle : Nat
  delay : Nat
  isListening : Bool
  deriving DecidableEq, Repr

/-- The `useVoiceRecognition` hook: its state cells, whether
`recognition.current` holds a recognition object, the handle in
`timeoutRef.current`, the timers that are pending, the handle that the next
`setTimeout` returns, and the trace of calls made on the recognition object. -/
structure CaptureSession where
  cells : VoiceRecognitionState
  recognition : Bool
  timeoutRef : Option Nat
  timers : List Timeout
  nextTimer : Nat
  calls : List RecognitionCall
  deriving DecidableEq, Repr

/-- The hook after the mount effect has run; `supported` says whether
`window` has `SpeechRecognition` or `webkitSpeechRecognition`.  Timer handles
are positive integers. -/
def mountSession (supported : Bool) : CaptureSession :=
  { cells := { isListening := false, transcript := "", error := none,
               isSupported := supported, confidence := 0 }
    recognition := supported
    timeoutRef := none
    timers := []
    nextTimer := 1
    calls := [] }

/-- The statement `if (timeoutRef.current) { clearTimeout(timeoutRef.current); }`. -/
def clearTimeoutRef (s : CaptureSession) : CaptureSession :=
  match s.timeoutRef with
  | some handle =>
    if handle = 0 then s else { s with timers := s.timers.filter (fun t => t.handle ≠ handle) }
  | none => s

/-- `startListening()`.  `startThrows` says whether `recognition.current.start()`
throws. -/
def startListening (s : CaptureSession) (startThrows : Bool) : CaptureSession :=
  if s.cells.isSupported = false then
    { s with
      cells := { s.cells with error := some "Speech recognition not supported in this browser" } }
  else if s.recognition = true ∧ s.cells.isListening = false then
    if startThrows then
      { s with
        cells := { s.cells with
                   transcript := ""
                   error := some "Failed to start voice recognition"
                   confidence := 0 }
        calls := s.calls ++ [RecognitionCall.start] }
    else
      { s with
        cells := { s.cells with transcript := "", error := none, confidence := 0 }
        calls := s.calls ++ [RecognitionCall.start]
        timeoutRef := some s.nextTimer
        timers := s.timers ++
          [{ handle := s.nextTimer, delay := 10000, isListening := s.cells.isListening }]
        nextTimer := s.nextTimer + 1 }
  else s

/-- The callback that `startListening` passes to `setTimeout`:
`if (recognition.current && isListening) { recognition.current.stop(); }`,
with the `isListening` of its closure. -/
def timeoutCallback (s : CaptureSession) (t : Timeout) : CaptureSession :=
  if s.recognition = true ∧ t.isListening = true then
    { s with calls := s.calls ++ [RecognitionCall.stop] }
  else s

/-- `stopListening()`. -/
def stopListening (s : CaptureSession) : CaptureSession :=
  clearTimeoutRef
    (if s.recognition = true ∧ s.cells.isListening = true then
      { s with calls := s.calls ++ [RecognitionCall.stop] }
    else s)

/-- `resetTranscript()`. -/
def resetTranscript (s : CaptureSession) : CaptureSession :=
  { s with cells := { s.cells with transcript := "", confidence := 0, error := none } }

/-- `recognition.current.onstart()`. -/
def onstart (s : CaptureSession) : CaptureSession :=
  { s with cells := { s.cells with isListening := true, error := none, transcript := "" } }

/-- `recognition.current.onerror(event)`, with `error = event.error`. -/
def onerror (s : CaptureSession) (error : String) : CaptureSession :=
  clearTimeoutRef { s with cells := { s.cells with error := some error, isListening := false } }

/-- `recognition.current.onend()`. -/
def onend (s : CaptureSession) : CaptureSession :=
  clearTimeoutRef { s with cells := { s.cells with isListening := false } }

/-- What can happen to the hook: a call of one of the three functions it
returns, an event of the recognition object, or a pending timer firing. -/
inductive CaptureEvent where
  | startListening (startThrows : Bool)
  | stopListening
  | resetTranscript
  | onstart
  | onresult (event : SpeechEvent)
  | onerror (error : String)
  | onend
  | timeoutFires (handle : Nat)
  deriving DecidableEq, Repr

/-- One step of the hook.  A timer fires only while it is pending, and is no
longer pending afterwards. -/
def captureStep (s : CaptureSession) : CaptureEvent → CaptureSession
  | CaptureEvent.startListening startThrows => startListening s startThrows
  | CaptureEvent.stopListening => stopListening s
  | CaptureEvent.resetTranscript => resetTranscript s
  | CaptureEvent.onstart => onstart s
  | CaptureEvent.onresult event => { s with cells := onresult s.cells event }
  | CaptureEvent.onerror error => onerror s error
  | CaptureEvent.onend => onend s
  | CaptureEvent.timeoutFires handle =>
    match s.timers.find? (fun t => t.handle = handle) with
    | some t => timeoutCallback { s with timers := s.timers.filter (fun u => u.handle ≠ handle) } t
    | none => s

/-- The hook after a sequence of steps. -/
def runCapture (s : CaptureSession) (events : List CaptureEvent) : CaptureSession :=
  events.foldl captureStep s

/-- Whether a step is a `result` event in which some result is marked final. -/
def hasFinalResult : CaptureEvent → Bool
  | CaptureEvent.onresult event => event.results.any (fun r => r.isFinal)
  | _ => false

/-- Every pending timer was armed by a `startListening` whose `isListening`
was false. -/
def TimersStale (s : CaptureSession) : Prop :=
  ∀ t ∈ s.timers, t.isListening = false

/-! ## Lemmas on the confirmation flow -/

theorem run_nil (s : AppState) : run s [] = s := rfl

theorem run_cons (s : AppState) (e : FlowEvent) (es : List FlowEvent) :
    run s (e :: es) = run (step s e) es := rfl

theorem run_append_singleton (s : AppState) (es : List FlowEvent) (e : FlowEvent) :
    run s (es ++ [e]) = step (run s es) e := by
  simp [run, List.foldl_append]

theorem phase_pending_iff (s : AppState) :
    phase s = FlowPhase.pending ↔
      s.pendingTransaction ≠ none ∧ s.txResult = none ∧ s.isProcessing = false := by
  unfold phase
  cases hp : s.pendingTransaction <;> cases ht : s.txResult <;> cases hi : s.isProcessing <;> simp

theorem phase_submitting_iff (s : AppState) :
    phase s = FlowPhase.submitting ↔
      s.pendingTransaction ≠ none ∧ s.txResult = none ∧ s.isProcessing = true := by
  unfold phase
  cases hp : s.pendingTransaction <;> cases ht : s.txResult <;> cases hi : s.isProcessing <;> simp

theorem phase_resolved_iff (s : AppState) (b : Bool) :
    phase s = FlowPhase.resolved b ↔
      s.pendingTransaction ≠ none ∧ ∃ r, s.txResult = some r ∧ r.success = b := by
  unfold phase
  cases hp : s.pendingTransaction <;> cases ht : s.txResult <;> cases hi : s.isProcessing <;> simp

theorem phase_none_iff (s : AppState) :
    phase s = FlowPhase.none ↔ s.pendingTransaction = none := by
  unfold phase
  cases hp : s.pendingTransaction <;> cases ht : s.txResult <;> cases hi : s.isProcessing <;> simp

/-- Settling a submission touches neither the slot nor the trace, clears
`isProcessing` and stores a result. -/
theorem handleConfirmSettled_fields (s : AppState) (outcome : FetchOutcome SubmissionResponse) :
    (handleConfirmSettled s outcome).pendingTransaction = s.pendingTransaction ∧
    (handleConfirmSettled s outcome).requests = s.requests ∧
    (handleConfirmSettled s outcome).isProcessing = false ∧
    (handleConfirmSettled s outcome).txResult ≠ none := by
  unfold handleConfirmSettled
  rcases h : handleTransactionConfirm s.messages outcome with ⟨messages, res⟩
  cases res <;> simp

/-- A step either leaves the trace of submission calls alone, or it is a click
on the enabled confirm button and appends the request built from the pending
transaction. -/
theorem step_requests (s : AppState) (e : FlowEvent) :
    (step s e).requests = s.requests ∨
    (e = FlowEvent.clickConfirm ∧ phase s = FlowPhase.pending ∧
      ∃ transaction, s.pendingTransaction = some transaction ∧
        step s e = handleConfirm s transaction) := by
  cases e with
  | intentReceived d v => left; rfl
  | clickCancel =>
    left
    simp only [step]
    cases phase s <;> rfl
  | clickConfirm =>
    simp only [step]
    cases hp : s.pendingTransaction with
    | none => left; rfl
    | some transaction =>
      cases hph : phase s with
      | pending => right; exact ⟨trivial, rfl, transaction, rfl, rfl⟩
      | none => left; rfl
      | submitting => left; rfl
      | resolved b => left; rfl
  | submissionSettles outcome =>
    left
    simp only [step]
    split
    · exact (handleConfirmSettled_fields s outcome).2.1
    · rfl
  | clickClose =>
    left
    simp only [step]
    cases phase s <;> rfl
  | render => left; rfl

/-- Every step keeps the state well formed. -/
theorem step_wellFormed (s : AppState) (e : FlowEvent) (h : WellFormed s) :
    WellFormed (step s e) := by
  obtain ⟨h1, h2⟩ := h
  cases e with
  | intentReceived d v =>
    refine ⟨?_, ?_⟩
    · intro hn; simp [step, handleTransactionDetected] at hn
    · intro hn; exact h2 hn
  | clickCancel =>
    simp only [step]
    cases hph : phase s <;> first | exact ⟨h1, h2⟩ | simp [WellFormed, handleTransactionCancel, unmount]
  | clickConfirm =>
    simp only [step]
    cases hp : s.pendingTransaction with
    | none => exact ⟨h1, h2⟩
    | some transaction =>
      cases hph : phase s with
      | pending =>
        have hpend := (phase_pending_iff s).1 hph
        refine ⟨?_, ?_⟩
        · intro hn; simp [handleConfirm, hp] at hn
        · intro hn; exact absurd hpend.2.1 hn
      | none => exact ⟨h1, h2⟩
      | submitting => exact ⟨h1, h2⟩
      | resolved b => exact ⟨h1, h2⟩
  | submissionSettles outcome =>
    simp only [step]
    split
    · next hproc =>
      have hf := handleConfirmSettled_fields s outcome
      refine ⟨?_, ?_⟩
      · intro hn
        rw [hf.1] at hn
        have := (h1 hn).1
        simp [hproc] at this
      · intro _; exact hf.2.2.1
    · exact ⟨h1, h2⟩
  | clickClose =>
    simp only [step]
    cases hph : phase s <;> first | exact ⟨h1, h2⟩ | simp [WellFormed, onClose, unmount]
  | render => exact ⟨h1, h2⟩

theorem initialState_wellFormed : WellFormed initialState := by
  simp [WellFormed, initialState]

/-- Every state reached from a well-formed one is well formed. -/
theorem run_wellFormed (s : AppState) (events : List FlowEvent) (h : WellFormed s) :
    WellFormed (run s events) := by
  induction events generalizing s with
  | nil => exact h
  | cons e es ih => exact ih (step s e) (step_wellFormed s e h)

/-- While the modal stays mounted, a step appends at most as many submission
calls as it uses up of `confirmsLeft`. -/
theorem step_confirmsLeft (s : AppState) (e : FlowEvent)
    (h : (step s e).pendingTransaction.isSome = true) :
    ∃ l, (step s e).requests = s.requests ++ l ∧
      l.length + confirmsLeft (step s e) ≤ confirmsLeft s := by
  cases e with
  | intentReceived d v => exact ⟨[], by simp [step, handleTransactionDetected], by simp [step, handleTransactionDetected, confirmsLeft]⟩
  | clickCancel =>
    simp only [step] at h ⊢
    cases hph : phase s with
    | pending => rw [hph] at h; simp [handleTransactionCancel, unmount] at h
    | none => exact ⟨[], by simp, by simp⟩
    | submitting => exact ⟨[], by simp, by simp⟩
    | resolved b => exact ⟨[], by simp, by simp⟩
  | clickConfirm =>
    simp only [step]
    cases hp : s.pendingTransaction with
    | none => exact ⟨[], by simp, by simp⟩
    | some transaction =>
      cases hph : phase s with
      | pending =>
        have hpend := (phase_pending_iff s).1 hph
        refine ⟨[sendCryptoRequest transaction], by simp [handleConfirm], ?_⟩
        simp [handleConfirm, confirmsLeft, hpend.2.1, hpend.2.2]
      | none => exact ⟨[], by simp, by simp⟩
      | submitting => exact ⟨[], by simp, by simp⟩
      | resolved b => exact ⟨[], by simp, by simp⟩
  | submissionSettles outcome =>
    simp only [step]
    split
    · have hf := handleConfirmSettled_fields s outcome
      refine ⟨[], by simp [hf.2.1], ?_⟩
      have : confirmsLeft (handleConfirmSettled s outcome) = 0 := by
        simp [confirmsLeft, hf.2.2.2]
      simp [this]
    · exact ⟨[], by simp, by simp⟩
  | clickClose =>
    simp only [step] at h ⊢
    cases hph : phase s with
    | resolved b => rw [hph] at h; simp [onClose, unmount] at h
    | none => exact ⟨[], by simp, by simp⟩
    | submitting => exact ⟨[], by simp, by simp⟩
    | pending => exact ⟨[], by simp, by simp⟩
  | render => exact ⟨[], by simp [step], by simp [step]⟩

/-- While the modal stays mounted, a sequence of steps appends at most
`confirmsLeft` submission calls. -/
theorem run_confirmsLeft (s : AppState) (events : List FlowEvent)
    (h : staysMounted s events = true) :
    ∃ l, (run s events).requests = s.requests ++ l ∧
      l.length + confirmsLeft (run s events) ≤ confirmsLeft s := by
  induction events generalizing s with
  | nil => exact ⟨[], by simp [run], by simp [run]⟩
  | cons e es ih =>
    simp only [staysMounted, Bool.and_eq_true] at h
    obtain ⟨l1, h1, hl1⟩ := step_confirmsLeft s e h.1
    obtain ⟨l2, h2, hl2⟩ := ih (step s e) h.2
    refine ⟨l1 ++ l2, ?_, ?_⟩
    · rw [run_cons, h2, h1, List.append_assoc]
    · rw [run_cons, List.length_append]; omega

/-! ## Lemmas on the dispatcher -/

theorem jsTrim_empty : jsTrim "" = "" := by decide

/-- A transcript with something left after trimming is not the empty string. -/
theorem ne_empty_of_jsTrim_ne_empty (t : String) (h : jsTrim t ≠ "") : t ≠ "" := by
  intro ht
  rw [ht] at h
  exact h jsTrim_empty

/-- The four conditions under which the effect dispatches. -/
theorem dispatchEffect_of_gate (st : VoiceCommandState) (t : String) (l : Bool) (c : Rat)
    (h : l = false ∧ c > 0.6 ∧ jsTrim t ≠ "" ∧ t ≠ st.lastCommand) :
    dispatchEffect st t l c =
      { st with
        isProcessing := true
        lastCommand := t
        requests := st.requests ++ [voiceCommandRequest t c] } := by
  obtain ⟨hl, hc, ht, hp⟩ := h
  have hne := ne_empty_of_jsTrim_ne_empty t ht
  unfold dispatchEffect handleProcessCommand
  rw [if_pos ⟨hne, hl, hc, hp⟩, if_neg ht]

/-- When one of the four conditions fails the effect does nothing. -/
theorem dispatchEffect_of_not_gate (st : VoiceCommandState) (t : String) (l : Bool) (c : Rat)
    (h : ¬ (l = false ∧ c > 0.6 ∧ jsTrim t ≠ "" ∧ t ≠ st.lastCommand)) :
    dispatchEffect st t l c = st := by
  unfold dispatchEffect handleProcessCommand
  split
  · next hg =>
    split
    · rfl
    · next ht => exact absurd ⟨hg.2.1, hg.2.2.1, ht, hg.2.2.2⟩ h
  · rfl

/-! ## Lemmas on the capture session -/

/-- What the `for` loop of `onresult` leaves in its two local strings. -/
theorem foldl_resultLoopBody (results : List SpeechResult) (acc : ResultLoop) :
    (results.foldl resultLoopBody acc).finalTranscript =
      acc.finalTranscript ++ concatTranscripts (finalResults results) ∧
    (results.foldl resultLoopBody acc).interimTranscript =
      acc.interimTranscript ++ concatTranscripts (interimResults results) := by
  induction results generalizing acc with
  | nil => simp [finalResults, interimResults, concatTranscripts]
  | cons r rs ih =>
    obtain ⟨ihf, ihi⟩ := ih (resultLoopBody acc r)
    rw [List.foldl_cons, ihf, ihi]
    cases hr : r.isFinal <;>
      simp [resultLoopBody, finalResults, interimResults, concatTranscripts, hr,
        String.append_assoc]

/-- The two local strings of `onresult` when the loop ends. -/
theorem resultLoop_transcripts (confidence : Rat) (event : SpeechEvent) :
    (resultLoop confidence event).finalTranscript =
      concatTranscripts (finalResults (event.results.drop event.resultIndex)) ∧
    (resultLoop confidence event).interimTranscript =
      concatTranscripts (interimResults (event.results.drop event.resultIndex)) := by
  have h := foldl_resultLoopBody (event.results.drop event.resultIndex)
    { finalTranscript := "", interimTranscript := "", confidence := confidence }
  simpa [resultLoop] using h

/-! ## Lemmas on the hook with its refs -/

theorem runCapture_cons (s : CaptureSession) (e : CaptureEvent) (es : List CaptureEvent) :
    runCapture s (e :: es) = runCapture (captureStep s e) es := rfl

/-- Clearing the timer of `timeoutRef` touches neither the cells nor the calls
and leaves only timers that were pending before. -/
theorem clearTimeoutRef_fields (s : CaptureSession) :
    (clearTimeoutRef s).cells = s.cells ∧ (clearTimeoutRef s).calls = s.calls ∧
    (clearTimeoutRef s).recognition = s.recognition ∧
    ∀ t ∈ (clearTimeoutRef s).timers, t ∈ s.timers := by
  unfold clearTimeoutRef
  cases s.timeoutRef with
  | none => exact ⟨rfl, rfl, rfl, fun _ h => h⟩
  | some handle =>
    by_cases h0 : handle = 0
    · simp [h0]
    · simp only [h0, if_false, true_and]
      exact fun t ht => (List.mem_filter.1 ht).1

theorem captureStep_timersStale (s : CaptureSession) (e : CaptureEvent) (h : TimersStale s) :
    TimersStale (captureStep s e) := by
  cases e with
  | startListening startThrows =>
    simp only [captureStep, startListening]
    split
    · exact h
    · split
      · next hg =>
        split
        · exact h
        · intro t ht
          simp only [List.mem_append, List.mem_singleton] at ht
          rcases ht with ht | ht
          · exact h t ht
          · rw [ht]; exact hg.2
      · exact h
  | stopListening =>
    intro t ht
    have hm := (clearTimeoutRef_fields _).2.2.2 t ht
    apply h t
    revert hm
    split <;> exact fun hm => hm
  | resetTranscript => exact h
  | onstart => exact h
  | onresult event => exact h
  | onerror error =>
    intro t ht
    exact h t ((clearTimeoutRef_fields
      { s with cells := { s.cells with error := some error, isListening := false } }).2.2.2 t ht)
  | onend =>
    intro t ht
    exact h t ((clearTimeoutRef_fields
      { s with cells := { s.cells with isListening := false } }).2.2.2 t ht)
  | timeoutFires handle =>
    simp only [captureStep]
    split
    · intro t ht
      have hm : t ∈ s.timers.filter (fun u => u.handle ≠ handle) := by
        revert ht
        unfold timeoutCallback
        split <;> exact fun ht => ht
      exact h t (List.mem_filter.1 hm).1
    · exact h

theorem runCapture_timersStale (s : CaptureSession) (events : List CaptureEvent)
    (h : TimersStale s) : TimersStale (runCapture s events) := by
  induction events generalizing s with
  | nil => exact h
  | cons e es ih => exact ih (captureStep s e) (captureStep_timersStale s e h)

/-- With stale timers only, a firing timer makes no call and changes no cell. -/
theorem timeoutFires_of_timersStale (s : CaptureSession) (handle : Nat) (h : TimersStale s) :
    (captureStep s (CaptureEvent.timeoutFires handle)).calls = s.calls ∧
    (captureStep s (CaptureEvent.timeoutFires handle)).cells = s.cells := by
  simp only [captureStep]
  split
  · next t hfind =>
    have ht : t.isListening = false := h t (List.mem_of_find?_eq_some hfind)
    simp [timeoutCallback, ht]
  · exact ⟨rfl, rfl⟩

/-- The loop of `onresult` leaves the confidence alone when no result it
visits is marked final. -/
theorem foldl_resultLoopBody_confidence (results : List SpeechResult) (acc : ResultLoop)
    (h : ∀ r ∈ results, r.isFinal = false) :
    (results.foldl resultLoopBody acc).confidence = acc.confidence := by
  induction results generalizing acc with
  | nil => rfl
  | cons r rs ih =>
    have hr : r.isFinal = false := h r (List.mem_cons_self r rs)
    rw [List.foldl_cons, ih _ (fun x hx => h x (List.mem_cons_of_mem r hx))]
    simp [resultLoopBody, hr]

/-- A step that is not a `result` event with a final result keeps a confidence
of 0. -/
theorem captureStep_confidence_zero (s : CaptureSession) (e : CaptureEvent)
    (h0 : s.cells.confidence = 0) (he : hasFinalResult e = false) :
    (captureStep s e).cells.confidence = 0 := by
  cases e with
  | startListening startThrows =>
    simp only [captureStep, startListening]
    split
    · exact h0
    · split
      · split <;> rfl
      · exact h0
  | stopListening =>
    simp only [captureStep, stopListening]
    rw [(clearTimeoutRef_fields _).1]
    split <;> exact h0
  | resetTranscript => rfl
  | onstart => exact h0
  | onresult event =>
    simp only [hasFinalResult, List.any_eq_false] at he
    have hdrop : ∀ r ∈ event.results.drop event.resultIndex, r.isFinal = false :=
      fun r hr => by simpa using he r (List.mem_of_mem_drop hr)
    simp only [captureStep, onresult, resultLoop]
    rw [foldl_resultLoopBody_confidence _ _ hdrop]
    exact h0
  | onerror error =>
    simp only [captureStep, onerror]
    rw [(clearTimeoutRef_fields _).1]
    exact h0
  | onend =>
    simp only [captureStep, onend]
    rw [(clearTimeoutRef_fields _).1]
    exact h0
  | timeoutFires handle =>
    simp only [captureStep]
    split
    · unfold timeoutCallback
      split <;> exact h0
    · exact h0

theorem runCapture_confidence_zero (s : CaptureSession) (events : List CaptureEvent)
    (h0 : s.cells.confidence = 0) (he : ∀ e ∈ events, hasFinalResult e = false) :
    (runCapture s events).cells.confidence = 0 := by
  induction events generalizing s with
  | nil => exact h0
  | cons e es ih =>
    rw [runCapture_cons]
    exact ih _ (captureStep_confidence_zero s e h0 (he e (List.mem_cons_self e es)))
      (fun x hx => he x (List.mem_cons_of_mem e hx))

/-- At confidence 0 the dispatching effect does nothing. -/
theorem dispatchEffect_confidence_zero (st : VoiceCommandState) (t : String) (l : Bool) :
    dispatchEffect st t l 0 = st := by
  apply dispatchEffect_of_not_gate
  rintro ⟨_, hc, _⟩
  norm_num at hc

/-! ## The claims -/

/-- Claim C1. After every sequence of steps from the initial state, a further
step either leaves the trace of `/api/send-crypto` calls as it is, or it is a
click on confirm taken while the flow is `pending`, and it appends exactly the
request built from the pending transaction; receiving an intent, cancelling,
closing, rendering and the settling of a submission never append one. -/
theorem submission_only_by_confirm_from_pending (events : List FlowEvent) (e : FlowEvent) :
    ((step (run initialState events) e).requests = (run initialState events).requests ∨
      (e = FlowEvent.clickConfirm ∧ phase (run initialState events) = FlowPhase.pending ∧
        ∃ transaction, (run initialState events).pendingTransaction = some transaction ∧
          (step (run initialState events) e).requests =
            (run initialState events).requests ++ [sendCryptoRequest transaction])) ∧
    (∀ transactionData voiceCommand,
      (step (run initialState events) (FlowEvent.intentReceived transactionData voiceCommand)).requests =
        (run initialState events).requests) ∧
    (step (run initialState events) FlowEvent.clickCancel).requests =
      (run initialState events).requests ∧
    (step (run initialState events) FlowEvent.clickClose).requests =
      (run initialState events).requests ∧
    (step (run initialState events) FlowEvent.render).requests =
      (run initialState events).requests ∧
    (∀ outcome,
      (step (run initialState events) (FlowEvent.submissionSettles outcome)).requests =
        (run initialState events).requests) ∧
    (∀ r ∈ (run initialState events).requests, r.url = "/api/send-crypto") := by
  have key : ∀ (s : AppState) (e : FlowEvent), e ≠ FlowEvent.clickConfirm →
      (step s e).requests = s.requests := by
    intro s e hne
    rcases step_requests s e with h | ⟨h, _⟩
    · exact h
    · exact absurd h hne
  refine ⟨?_, ?_, ?_, ?_, ?_, ?_, ?_⟩
  · rcases step_requests (run initialState events) e with h | ⟨he, hph, transaction, hp, hstep⟩
    · exact Or.inl h
    · exact Or.inr ⟨he, hph, transaction, hp, by rw [hstep]; rfl⟩
  · intro d v; exact key _ _ (by simp)
  · exact key _ _ (by simp)
  · exact key _ _ (by simp)
  · exact key _ _ (by simp)
  · intro outcome; exact key _ _ (by simp)
  · induction events using List.reverseRecOn with
    | nil => intro r hr; simp [run, initialState] at hr
    | append_singleton es e ih =>
      intro r hr
      rw [run_append_singleton] at hr
      rcases step_requests (run initialState es) e with h | ⟨_, _, transaction, _, hstep⟩
      · rw [h] at hr; exact ih r hr
      · rw [hstep] at hr
        simp only [handleConfirm, List.mem_append, List.mem_singleton] at hr
        rcases hr with hr | hr
        · exact ih r hr
        · rw [hr]; rfl

/-- Claim C2. A click on confirm while the flow is `submitting` changes
nothing, and as long as the modal stays mounted (the flow does not return to
`none`) the steps taken append at most one submission call to the trace, none
at all once a submission is awaited or resolved. -/
theorem submission_at_most_once (s : AppState) (events : List FlowEvent)
    (h : staysMounted s events = true) :
    (phase s = FlowPhase.submitting → step s FlowEvent.clickConfirm = s) ∧
    (run s events).requests.length ≤ s.requests.length + 1 ∧
    (phase s = FlowPhase.submitting → (run s events).requests = s.requests) ∧
    (∀ b, phase s = FlowPhase.resolved b → (run s events).requests = s.requests) := by
  obtain ⟨l, hl, hlen⟩ := run_confirmsLeft s events h
  have hle : confirmsLeft s ≤ 1 := by unfold confirmsLeft; split <;> simp
  refine ⟨?_, ?_, ?_, ?_⟩
  · intro hph
    simp only [step, hph]
    cases s.pendingTransaction <;> rfl
  · rw [hl, List.length_append]; omega
  · intro hph
    have hs := (phase_submitting_iff s).1 hph
    have h0 : confirmsLeft s = 0 := by simp [confirmsLeft, hs.2.2]
    have : l = [] := List.length_eq_zero.1 (by omega)
    rw [hl, this, List.append_nil]
  · intro b hph
    obtain ⟨_, r, hr, _⟩ := (phase_resolved_iff s b).1 hph
    have h0 : confirmsLeft s = 0 := by simp [confirmsLeft, hr]
    have : l = [] := List.length_eq_zero.1 (by omega)
    rw [hl, this, List.append_nil]

/-- Witness of claim C2: in scenario A, clicking confirm twice more while the
submission is awaited, and once more after it has resolved, leaves the single
request in the trace. -/
theorem submission_at_most_once_witness :
    phase scenarioSubmitting = FlowPhase.submitting ∧
    step scenarioSubmitting FlowEvent.clickConfirm = scenarioSubmitting ∧
    (run scenarioSubmitting
      [FlowEvent.clickConfirm, FlowEvent.clickConfirm,
        FlowEvent.submissionSettles
          (FetchOutcome.responded 200
            (Except.ok { success := true, message := none, txHash := some "0xabc" })),
        FlowEvent.clickConfirm]).requests = scenarioSubmitting.requests :=
  ⟨rfl,
    (submission_at_most_once scenarioSubmitting
      [FlowEvent.clickConfirm, FlowEvent.clickConfirm,
        FlowEvent.submissionSettles
          (FetchOutcome.responded 200
            (Except.ok { success := true, message := none, txHash := some "0xabc" })),
        FlowEvent.clickConfirm] rfl).1 rfl,
    (submission_at_most_once scenarioSubmitting
      [FlowEvent.clickConfirm, FlowEvent.clickConfirm,
        FlowEvent.submissionSettles
          (FetchOutcome.responded 200
            (Except.ok { success := true, message := none, txHash := some "0xabc" })),
        FlowEvent.clickConfirm] rfl).2.2.1 rfl⟩

/-- Claim C3. The effect sends a classification request for transcript `t`
exactly when `isListening` is false, `confidence > 0.6`, `t.trim()` is not empty
and `t` differs from `lastCommand`; it then records `t` as `lastCommand`.  When
one of the four conditions fails the dispatcher state is unchanged: no request,
no callback, same `lastCommand`.  At confidence `0.6` nothing is dispatched; at
`0.61` the request is sent when the other three conditions hold. -/
theorem dispatch_iff_gate (st : VoiceCommandState) (t : String) (l : Bool) (c : Rat) :
    ((dispatchEffect st t l c).requests = st.requests ++ [voiceCommandRequest t c] ↔
      (l = false ∧ c > 0.6 ∧ jsTrim t ≠ "" ∧ t ≠ st.lastCommand)) ∧
    ((l = false ∧ c > 0.6 ∧ jsTrim t ≠ "" ∧ t ≠ st.lastCommand) →
      dispatchEffect st t l c =
        { st with
          isProcessing := true
          lastCommand := t
          requests := st.requests ++ [voiceCommandRequest t c] }) ∧
    (¬ (l = false ∧ c > 0.6 ∧ jsTrim t ≠ "" ∧ t ≠ st.lastCommand) →
      dispatchEffect st t l c = st) ∧
    dispatchEffect st t l 0.6 = st ∧
    ((l = false ∧ jsTrim t ≠ "" ∧ t ≠ st.lastCommand) →
      (dispatchEffect st t l 0.61).requests = st.requests ++ [voiceCommandRequest t 0.61]) := by
  refine ⟨⟨?_, ?_⟩, dispatchEffect_of_gate st t l c, dispatchEffect_of_not_gate st t l c, ?_, ?_⟩
  · intro hreq
    by_contra hg
    rw [dispatchEffect_of_not_gate st t l c hg] at hreq
    have := congrArg List.length hreq
    simp at this
  · intro hg
    rw [dispatchEffect_of_gate st t l c hg]
  · apply dispatchEffect_of_not_gate
    rintro ⟨_, hc, _⟩
    exact absurd hc (lt_irrefl _)
  · rintro ⟨hl, ht, hp⟩
    rw [dispatchEffect_of_gate st t l 0.61 ⟨hl, by norm_num, ht, hp⟩]

/-- Witness of claim C3: the utterance of scenario A at confidence 0.95, after
listening has ended and with no earlier command, is dispatched. -/
theorem dispatch_iff_gate_witness :
    (dispatchEffect { isProcessing := false, lastCommand := "", requests := [], calls := [] }
        "Send 0.005 ETH to annie.base.eth" false 0.95).requests =
      [] ++ [voiceCommandRequest "Send 0.005 ETH to annie.base.eth" 0.95] :=
  (dispatch_iff_gate { isProcessing := false, lastCommand := "", requests := [], calls := [] }
    "Send 0.005 ETH to annie.base.eth" false 0.95).1.2
    ⟨rfl, by norm_num, by decide, by decide⟩

/-- Claim C4. When the classification of utterance `u` settles with
`success = true` and a transfer payload, with or without a message, the one
callback invoked is `onTransactionDetected(transfer, u)`, it is not an
`onCommand` call, and `App` then holds as pending transaction the payload's
amount, token and recipient together with `voiceCommand = u`. -/
theorem transfer_response_gives_intent (st : VoiceCommandState) (app : AppState) (u : String)
    (status : Nat) (message : Option String) (transfer : TransferPayload) :
    handleProcessCommandSettled st u
        (FetchOutcome.responded status
          (Except.ok { success := true, message := message, transfer := some transfer })) =
      { st with
        calls := st.calls ++ [CallbackCall.onTransactionDetected transfer u]
        isProcessing := false } ∧
    (∀ response originalCommand,
      classifierCallback u
          (FetchOutcome.responded status
            (Except.ok { success := true, message := message, transfer := some transfer })) ≠
        CallbackCall.onCommand response originalCommand) ∧
    (deliver app (CallbackCall.onTransactionDetected transfer u)).pendingTransaction =
      some { amount := transfer.amount, token := transfer.token,
             recipient := transfer.recipient, voiceCommand := u } := by
  refine ⟨rfl, ?_, rfl⟩
  intro response originalCommand
  simp [classifierCallback]

/-- Scenario of claim C4: the payload `{amount: 0.005, token: "ETH",
recipient: "annie.base.eth"}` accompanied by a message. -/
theorem transfer_response_gives_intent_witness :
    (deliver initialState
        (classifierCallback "Send 0.005 ETH to annie.base.eth"
          (FetchOutcome.responded 200
            (Except.ok { success := true, message := some "Sending",
                         transfer := some { amount := 0.005, token := "ETH",
                                            recipient := "annie.base.eth" } })))).pendingTransaction =
      some { amount := 0.005, token := "ETH", recipient := "annie.base.eth",
             voiceCommand := "Send 0.005 ETH to annie.base.eth" } :=
  (transfer_response_gives_intent
    { isProcessing := true, lastCommand := "Send 0.005 ETH to annie.base.eth", requests := [], calls := [] }
    initialState "Send 0.005 ETH to annie.base.eth" 200 (some "Sending")
    { amount := 0.005, token := "ETH", recipient := "annie.base.eth" }).2.2

/-- Claim C5, as stated, fails: a failed response whose message is the empty
string is answered with the default apology, not with the classifier's message. -/
theorem empty_message_not_forwarded :
    classifierCallback "check my balance"
        (FetchOutcome.responded 200
          (Except.ok { success := false, message := some "", transfer := none })) =
      CallbackCall.onCommand (some "Sorry, I couldn't process that command.") "check my balance" ∧
    classifierCallback "check my balance"
        (FetchOutcome.responded 200
          (Except.ok { success := false, message := some "", transfer := none })) ≠
      CallbackCall.onCommand (some "") "check my balance" := by
  decide

/-- Claim C5, amended. When the classification of utterance `u` fails, the one
callback invoked is `onCommand` with `u`, and no delivery of it changes the
pending transaction.  Its text is "Sorry, there was an error processing your
voice command." when `fetch` or `response.json()` rejected; when the response
has `success = false` it is the response's message if that is a non-empty
string and "Sorry, I couldn't process that command." if the message is absent
or empty, whether or not the response carries a transfer payload. -/
theorem failed_classification_emits_one_message (st : VoiceCommandState) (app : AppState)
    (u : String) :
    (∀ m, handleProcessCommandSettled st u (FetchOutcome.rejected m) =
      { st with
        calls := st.calls ++
          [CallbackCall.onCommand (some "Sorry, there was an error processing your voice command.") u]
        isProcessing := false }) ∧
    (∀ status m, handleProcessCommandSettled st u (FetchOutcome.responded status (Except.error m)) =
      { st with
        calls := st.calls ++
          [CallbackCall.onCommand (some "Sorry, there was an error processing your voice command.") u]
        isProcessing := false }) ∧
    (∀ status message transfer,
      handleProcessCommandSettled st u
          (FetchOutcome.responded status
            (Except.ok { success := false, message := message, transfer := transfer })) =
        { st with
          calls := st.calls ++
            [CallbackCall.onCommand
              (some (orElse message "Sorry, I couldn't process that command.")) u]
          isProcessing := false }) ∧
    (∀ m d, m ≠ "" → orElse (some m) d = m) ∧
    (∀ d, orElse none d = d ∧ orElse (some "") d = d) ∧
    (∀ response, (deliver app (CallbackCall.onCommand response u)).pendingTransaction =
      app.pendingTransaction) := by
  refine ⟨fun _ => rfl, fun _ _ => rfl, fun _ _ _ => rfl, ?_, ?_, fun _ => rfl⟩
  · intro m d hm
    simp [orElse, hm]
  · intro d
    simp [orElse]

/-- Witness of claim C5, amended: a failed response that carries both a
message and a transfer payload is answered with the message alone. -/
theorem failed_classification_emits_one_message_witness :
    (handleProcessCommandSettled
      { isProcessing := true, lastCommand := "Send 5 ETH to bob.eth", requests := [], calls := [] }
      "Send 5 ETH to bob.eth"
      (FetchOutcome.responded 200
        (Except.ok { success := false, message := some "Insufficient balance",
                     transfer := some { amount := 5, token := "ETH", recipient := "bob.eth" } }))).calls =
      [CallbackCall.onCommand (some "Insufficient balance") "Send 5 ETH to bob.eth"] :=
  (congrArg VoiceCommandState.calls
    ((failed_classification_emits_one_message
      { isProcessing := true, lastCommand := "Send 5 ETH to bob.eth", requests := [], calls := [] }
      initialState "Send 5 ETH to bob.eth").2.2.1 200 (some "Insufficient balance")
      (some { amount := 5, token := "ETH", recipient := "bob.eth" }))).trans rfl

/-- Claim C6, as stated, fails: a response with status 500 whose body has
`success: true` ends the flow in `resolved true`, because the HTTP status is
never read. -/
theorem non2xx_success_body_resolves_success :
    ¬ (200 ≤ 500 ∧ 500 < 300) ∧
    phase (run initialState
      [FlowEvent.intentReceived { amount := 0.005, token := "ETH", recipient := "annie.base.eth" }
          "Send 0.005 ETH to annie.base.eth",
        FlowEvent.clickConfirm,
        FlowEvent.submissionSettles
          (FetchOutcome.responded 500
            (Except.ok { success := true, message := none, txHash := some "0xabc" }))]) =
      FlowPhase.resolved true ∧
    (run initialState
      [FlowEvent.intentReceived { amount := 0.005, token := "ETH", recipient := "annie.base.eth" }
          "Send 0.005 ETH to annie.base.eth",
        FlowEvent.clickConfirm,
        FlowEvent.submissionSettles
          (FetchOutcome.responded 500
            (Except.ok { success := true, message := none, txHash := some "0xabc" }))]).txResult =
      some { success := true, txHash := some "0xabc", error := none } :=
  ⟨by decide, rfl, rfl⟩

/-- Claim C6, amended. While a submission is awaited: if `fetch` or
`response.json()` rejects with message `m`, or the body has `success = false`
(then `m` is the body's message if that is a non-empty string, otherwise
"Transaction failed"), whatever the HTTP status, then the flow ends in
`resolved false` with `txResult = { success: false, error: m }`, the entry
"Transaction failed: m" flagged `isError` is appended to the conversation, no
request is issued, and `handleTransactionConfirm` rethrows the error to
`handleConfirm`. -/
theorem failed_submission_resolves_failure (s : AppState)
    (h : phase s = FlowPhase.submitting) :
    (∀ m,
      step s (FlowEvent.submissionSettles (FetchOutcome.rejected m)) =
        { s with
          messages := s.messages ++
            [{ text := some ("Transaction failed: " ++ m), type := MessageType.assistant,
               isError := true }]
          txResult := some { success := false, txHash := none, error := some m }
          isProcessing := false } ∧
      phase (step s (FlowEvent.submissionSettles (FetchOutcome.rejected m))) =
        FlowPhase.resolved false ∧
      (handleTransactionConfirm s.messages (FetchOutcome.rejected m)).2 = Except.error m) ∧
    (∀ status m,
      step s (FlowEvent.submissionSettles (FetchOutcome.responded status (Except.error m))) =
        { s with
          messages := s.messages ++
            [{ text := some ("Transaction failed: " ++ m), type := MessageType.assistant,
               isError := true }]
          txResult := some { success := false, txHash := none, error := some m }
          isProcessing := false } ∧
      phase (step s (FlowEvent.submissionSettles
          (FetchOutcome.responded status (Except.error m)))) = FlowPhase.resolved false ∧
      (handleTransactionConfirm s.messages (FetchOutcome.responded status (Except.error m))).2 =
        Except.error m) ∧
    (∀ status message txHash,
      step s (FlowEvent.submissionSettles
          (FetchOutcome.responded status
            (Except.ok { success := false, message := message, txHash := txHash }))) =
        { s with
          messages := s.messages ++
            [{ text := some ("Transaction failed: " ++ orElse message "Transaction failed"),
               type := MessageType.assistant, isError := true }]
          txResult := some { success := false, txHash := none,
                             error := some (orElse message "Transaction failed") }
          isProcessing := false } ∧
      phase (step s (FlowEvent.submissionSettles
          (FetchOutcome.responded status
            (Except.ok { success := false, message := message, txHash := txHash })))) =
        FlowPhase.resolved false ∧
      (handleTransactionConfirm s.messages
          (FetchOutcome.responded status
            (Except.ok { success := false, message := message, txHash := txHash }))).2 =
        Except.error (orElse message "Transaction failed")) ∧
    (∀ m d, m ≠ "" → orElse (some m) d = m) := by
  obtain ⟨hp, _, hproc⟩ := (phase_submitting_iff s).1 h
  have hres : ∀ s2 : AppState, s2.pendingTransaction = s.pendingTransaction →
      ∀ m, s2.txResult = some { success := false, txHash := none, error := some m } →
      phase s2 = FlowPhase.resolved false := by
    intro s2 h2 m hm
    exact (phase_resolved_iff s2 false).2 ⟨by rw [h2]; exact hp, _, hm, rfl⟩
  refine ⟨?_, ?_, ?_, ?_⟩
  · intro m
    have hstep : step s (FlowEvent.submissionSettles (FetchOutcome.rejected m)) =
        { s with
          messages := s.messages ++ [failureMessage m]
          txResult := some { success := false, txHash := none, error := some m }
          isProcessing := false } := by
      simp [step, hproc, handleConfirmSettled, handleTransactionConfirm]
    exact ⟨hstep, hres _ (by rw [hstep]) m (by rw [hstep]), rfl⟩
  · intro status m
    have hstep : step s (FlowEvent.submissionSettles
          (FetchOutcome.responded status (Except.error m))) =
        { s with
          messages := s.messages ++ [failureMessage m]
          txResult := some { success := false, txHash := none, error := some m }
          isProcessing := false } := by
      simp [step, hproc, handleConfirmSettled, handleTransactionConfirm]
    exact ⟨hstep, hres _ (by rw [hstep]) m (by rw [hstep]), rfl⟩
  · intro status message txHash
    have hstep : step s (FlowEvent.submissionSettles
          (FetchOutcome.responded status
            (Except.ok { success := false, message := message, txHash := txHash }))) =
        { s with
          messages := s.messages ++ [failureMessage (orElse message "Transaction failed")]
          txResult := some { success := false, txHash := none,
                             error := some (orElse message "Transaction failed") }
          isProcessing := false } := by
      simp [step, hproc, handleConfirmSettled, handleTransactionConfirm]
    exact ⟨hstep, hres _ (by rw [hstep]) _ (by rw [hstep]), rfl⟩
  · intro m d hm
    simp [orElse, hm]

/-- Witness of claim C6, amended: in scenario A the endpoint answers with
status 400 and `{success: false, message: "Insufficient funds"}`. -/
theorem failed_submission_resolves_failure_witness :
    phase scenarioSubmitting = FlowPhase.submitting ∧
    (step scenarioSubmitting
      (FlowEvent.submissionSettles
        (FetchOutcome.responded 400
          (Except.ok { success := false, message := some "Insufficient funds",
                       txHash := none })))).txResult =
      some { success := false, txHash := none, error := some "Insufficient funds" } :=
  ⟨rfl,
    (congrArg AppState.txResult
      ((failed_submission_resolves_failure scenarioSubmitting rfl).2.2.1 400
        (some "Insufficient funds") none).1).trans rfl⟩

/-- Claim C7. A click on confirm while transaction `t` is pending appends one
request to `/api/send-crypto` whose body has exactly the keys `amount`, `token`
and `recipient`, in that order, with the values of `t`, and no key
`voiceCommand`; the flow is then `submitting`.  When an awaited submission
settles with a body that has `success = true`, the flow ends in
`resolved true` with `txResult = { success: true, txHash }` for the body's
`txHash`, and one entry flagged `isSuccess` is appended to the conversation. -/
theorem confirm_submits_three_fields (s : AppState) (transaction : TransferIntent)
    (hp : s.pendingTransaction = some transaction) (h : phase s = FlowPhase.pending) :
    step s FlowEvent.clickConfirm =
      { s with
        isProcessing := true
        requests := s.requests ++
          [{ url := "/api/send-crypto"
             body := [("amount", JsonValue.number transaction.amount),
                      ("token", JsonValue.string transaction.token),
                      ("recipient", JsonValue.string transaction.recipient)] }] } ∧
    (sendCryptoRequest transaction).body.map Prod.fst = ["amount", "token", "recipient"] ∧
    "voiceCommand" ∉ (sendCryptoRequest transaction).body.map Prod.fst ∧
    phase (step s FlowEvent.clickConfirm) = FlowPhase.submitting ∧
    (∀ status message txHash,
      step (step s FlowEvent.clickConfirm)
          (FlowEvent.submissionSettles
            (FetchOutcome.responded status
              (Except.ok { success := true, message := message, txHash := txHash }))) =
        { s with
          messages := s.messages ++
            [{ text := message, type := MessageType.assistant, isSuccess := true }]
          txResult := some { success := true, txHash := txHash, error := none }
          isProcessing := false
          requests := s.requests ++ [sendCryptoRequest transaction] } ∧
      phase (step (step s FlowEvent.clickConfirm)
          (FlowEvent.submissionSettles
            (FetchOutcome.responded status
              (Except.ok { success := true, message := message, txHash := txHash })))) =
        FlowPhase.resolved true) := by
  have hstep : step s FlowEvent.clickConfirm = handleConfirm s transaction := by
    simp only [step, hp, h]
  refine ⟨?_, rfl, by simp [sendCryptoRequest], ?_, ?_⟩
  · rw [hstep]; rfl
  · rw [hstep]
    exact (phase_submitting_iff _).2 ⟨by simp [handleConfirm, hp],
      ((phase_pending_iff s).1 h).2.1, rfl⟩
  · intro status message txHash
    have h2 : step (step s FlowEvent.clickConfirm)
          (FlowEvent.submissionSettles
            (FetchOutcome.responded status
              (Except.ok { success := true, message := message, txHash := txHash }))) =
        { s with
          messages := s.messages ++
            [{ text := message, type := MessageType.assistant, isSuccess := true }]
          txResult := some { success := true, txHash := txHash, error := none }
          isProcessing := false
          requests := s.requests ++ [sendCryptoRequest transaction] } := by
      rw [hstep]
      simp [step, handleConfirm, handleConfirmSettled, handleTransactionConfirm]
    refine ⟨h2, ?_⟩
    rw [h2]
    exact (phase_resolved_iff _ true).2 ⟨by simp [hp], _, rfl, rfl⟩

/-- Witness of claim C7 (scenario A): the response `{success: true,
txHash: "0xabc"}` gives the stored hash "0xabc". -/
theorem confirm_submits_three_fields_witness :
    scenarioPending.pendingTransaction =
      some { amount := 0.005, token := "ETH", recipient := "annie.base.eth",
             voiceCommand := "Send 0.005 ETH to annie.base.eth" } ∧
    phase scenarioPending = FlowPhase.pending ∧
    scenarioSubmitting.requests =
      [{ url := "/api/send-crypto"
         body := [("amount", JsonValue.number 0.005), ("token", JsonValue.string "ETH"),
                  ("recipient", JsonValue.string "annie.base.eth")] }] ∧
    scenarioResolved.txResult = some { success := true, txHash := some "0xabc", error := none } ∧
    phase scenarioResolved = FlowPhase.resolved true :=
  ⟨rfl, rfl,
    (congrArg AppState.requests
      (confirm_submits_three_fields scenarioPending
        { amount := 0.005, token := "ETH", recipient := "annie.base.eth",
          voiceCommand := "Send 0.005 ETH to annie.base.eth" } rfl rfl).1).trans rfl,
    (congrArg AppState.txResult
      ((confirm_submits_three_fields scenarioPending
        { amount := 0.005, token := "ETH", recipient := "annie.base.eth",
          voiceCommand := "Send 0.005 ETH to annie.base.eth" } rfl rfl).2.2.2.2 200 none
        (some "0xabc")).1).trans rfl,
    ((confirm_submits_three_fields scenarioPending
        { amount := 0.005, token := "ETH", recipient := "annie.base.eth",
          voiceCommand := "Send 0.005 ETH to annie.base.eth" } rfl rfl).2.2.2.2 200 none
        (some "0xabc")).2⟩

/-- Claim C8. Cancelling while a transaction is pending sets
`pendingTransaction` to null (the flow is `none` again), appends to the
conversation exactly the assistant entry "Transaction cancelled." and leaves
the trace of submission calls as it was. -/
theorem cancel_from_pending (s : AppState) (h : phase s = FlowPhase.pending) :
    (step s FlowEvent.clickCancel).pendingTransaction = none ∧
    phase (step s FlowEvent.clickCancel) = FlowPhase.none ∧
    (step s FlowEvent.clickCancel).messages =
      s.messages ++ [{ text := some "Transaction cancelled.", type := MessageType.assistant }] ∧
    (step s FlowEvent.clickCancel).requests = s.requests ∧
    (step s FlowEvent.clickCancel).isProcessing = false ∧
    (step s FlowEvent.clickCancel).txResult = none := by
  have hstep : step s FlowEvent.clickCancel = handleTransactionCancel s := by
    simp only [step, h]
  rw [hstep]
  exact ⟨rfl, rfl, rfl, rfl, rfl, rfl⟩

/-- Witness of claim C8 (scenario B): the pending transfer of scenario A is
cancelled; no submission call has been made. -/
theorem cancel_from_pending_witness :
    phase scenarioPending = FlowPhase.pending ∧
    phase (step scenarioPending FlowEvent.clickCancel) = FlowPhase.none ∧
    (step scenarioPending FlowEvent.clickCancel).requests = [] :=
  ⟨rfl, (cancel_from_pending scenarioPending rfl).2.1,
    ((cancel_from_pending scenarioPending rfl).2.2.2.1).trans rfl⟩

/-- Claim C9. In every state reached from the initial state in which a result
`r` is stored: the flow is `resolved r.success`; clicks on confirm and cancel,
a settling submission and a render change nothing; a newly received intent
leaves the stored result, the flow state and the trace of submission calls as
they are; and close sets both `pendingTransaction` and `txResult` to null. -/
theorem resolved_is_terminal (events : List FlowEvent) (r : TransactionOutcome)
    (h : (run initialState events).txResult = some r) :
    phase (run initialState events) = FlowPhase.resolved r.success ∧
    step (run initialState events) FlowEvent.clickConfirm = run initialState events ∧
    step (run initialState events) FlowEvent.clickCancel = run initialState events ∧
    (∀ outcome, step (run initialState events) (FlowEvent.submissionSettles outcome) =
      run initialState events) ∧
    step (run initialState events) FlowEvent.render = run initialState events ∧
    (∀ transactionData voiceCommand,
      (step (run initialState events)
        (FlowEvent.intentReceived transactionData voiceCommand)).txResult = some r ∧
      phase (step (run initialState events)
        (FlowEvent.intentReceived transactionData voiceCommand)) = FlowPhase.resolved r.success ∧
      (step (run initialState events)
        (FlowEvent.intentReceived transactionData voiceCommand)).requests =
        (run initialState events).requests) ∧
    (step (run initialState events) FlowEvent.clickClose).pendingTransaction = none ∧
    (step (run initialState events) FlowEvent.clickClose).txResult = none ∧
    phase (step (run initialState events) FlowEvent.clickClose) = FlowPhase.none ∧
    (step (run initialState events) FlowEvent.clickClose).requests =
      (run initialState events).requests := by
  have hwf := run_wellFormed initialState events initialState_wellFormed
  generalize run initialState events = s at h hwf
  obtain ⟨h1, h2⟩ := hwf
  have hproc : s.isProcessing = false := h2 (by simp [h])
  have hpend : s.pendingTransaction ≠ none := by
    intro hn
    have := (h1 hn).2
    simp [h] at this
  have hph : phase s = FlowPhase.resolved r.success :=
    (phase_resolved_iff s r.success).2 ⟨hpend, r, h, rfl⟩
  refine ⟨hph, ?_, ?_, ?_, rfl, ?_, ?_, ?_, ?_, ?_⟩
  · simp only [step, hph]
    cases s.pendingTransaction <;> rfl
  · simp only [step, hph]
  · intro outcome
    simp [step, hproc]
  · intro d v
    refine ⟨h, ?_, rfl⟩
    exact (phase_resolved_iff _ r.success).2 ⟨by simp [step, handleTransactionDetected], r, h, rfl⟩
  · simp only [step, hph]; rfl
  · simp only [step, hph]; rfl
  · simp only [step, hph]; rfl
  · simp only [step, hph]; rfl

/-- Witness of claim C9: the resolved state of scenario A. -/
theorem resolved_is_terminal_witness :
    (run initialState
      [FlowEvent.intentReceived scenarioTransfer scenarioUtterance, FlowEvent.clickConfirm,
        FlowEvent.submissionSettles
          (FetchOutcome.responded 200
            (Except.ok { success := true, message := none, txHash := some "0xabc" }))]).txResult =
      some { success := true, txHash := some "0xabc", error := none } ∧
    phase (run initialState
      [FlowEvent.intentReceived scenarioTransfer scenarioUtterance, FlowEvent.clickConfirm,
        FlowEvent.submissionSettles
          (FetchOutcome.responded 200
            (Except.ok { success := true, message := none, txHash := some "0xabc" }))]) =
      FlowPhase.resolved true :=
  ⟨rfl,
    (resolved_is_terminal
      [FlowEvent.intentReceived scenarioTransfer scenarioUtterance, FlowEvent.clickConfirm,
        FlowEvent.submissionSettles
          (FetchOutcome.responded 200
            (Except.ok { success := true, message := none, txHash := some "0xabc" }))]
      { success := true, txHash := some "0xabc", error := none } rfl).1⟩

/-- Claim C10, as stated, fails: in an event with a final result whose
transcript is empty followed by an interim result "hello", a result is marked
final, the concatenation of the final transcripts is "", and `onresult` stores
the interim text "hello". -/
theorem empty_final_stores_interim :
    finalResults [{ transcript := "", confidence := 0, isFinal := true },
                  { transcript := "hello", confidence := 0, isFinal := false }] ≠ [] ∧
    concatTranscripts
      (finalResults [{ transcript := "", confidence := 0, isFinal := true },
                     { transcript := "hello", confidence := 0, isFinal := false }]) = "" ∧
    (onresult
      { isListening := true, transcript := "", error := none, isSupported := true, confidence := 0 }
      { resultIndex := 0
        results := [{ transcript := "", confidence := 0, isFinal := true },
                    { transcript := "hello", confidence := 0, isFinal := false }] }).transcript =
      "hello" ∧
    (onresult
      { isListening := true, transcript := "", error := none, isSupported := true, confidence := 0 }
      { resultIndex := 0
        results := [{ transcript := "", confidence := 0, isFinal := true },
                    { transcript := "hello", confidence := 0, isFinal := false }] }).transcript ≠
      concatTranscripts
        (finalResults [{ transcript := "", confidence := 0, isFinal := true },
                       { transcript := "hello", confidence := 0, isFinal := false }]) :=
  ⟨by simp [finalResults], rfl, rfl, by decide⟩

/-- Claim C10, amended. Among the results of the event from `resultIndex` on,
`onresult` stores the concatenation, in order, of the transcripts of those
marked final whenever that concatenation is not empty; when it is empty, and so
in particular when none of them is final, it stores the concatenation of the
transcripts of those not marked final. -/
theorem onresult_transcript (st : VoiceRecognitionState) (event : SpeechEvent) :
    (concatTranscripts (finalResults (event.results.drop event.resultIndex)) ≠ "" →
      (onresult st event).transcript =
        concatTranscripts (finalResults (event.results.drop event.resultIndex))) ∧
    (concatTranscripts (finalResults (event.results.drop event.resultIndex)) = "" →
      (onresult st event).transcript =
        concatTranscripts (interimResults (event.results.drop event.resultIndex))) ∧
    (finalResults (event.results.drop event.resultIndex) = [] →
      (onresult st event).transcript =
        concatTranscripts (interimResults (event.results.drop event.resultIndex))) := by
  obtain ⟨hf, hi⟩ := resultLoop_transcripts st.confidence event
  have key : (onresult st event).transcript =
      if concatTranscripts (finalResults (event.results.drop event.resultIndex)) = "" then
        concatTranscripts (interimResults (event.results.drop event.resultIndex))
      else concatTranscripts (finalResults (event.results.drop event.resultIndex)) := by
    simp only [onresult, hf, hi]
  refine ⟨fun h => ?_, fun h => ?_, fun h => ?_⟩
  · rw [key, if_neg h]
  · rw [key, if_pos h]
  · rw [key, if_pos (by rw [h]; rfl)]

/-- Witness of claim C10, amended: an event whose results from `resultIndex` on
are a final "hello" and an interim " wor" stores "hello"; an event with the
interim results "hel" and "lo" only stores "hello". -/
theorem onresult_transcript_witness :
    (onresult
      { isListening := true, transcript := "", error := none, isSupported := true, confidence := 0 }
      { resultIndex := 1
        results := [{ transcript := "send", confidence := 0.9, isFinal := true },
                    { transcript := "hello", confidence := 0.8, isFinal := true },
                    { transcript := " wor", confidence := 0, isFinal := false }] }).transcript =
      "hello" ∧
    (onresult
      { isListening := true, transcript := "", error := none, isSupported := true, confidence := 0 }
      { resultIndex := 0
        results := [{ transcript := "hel", confidence := 0, isFinal := false },
                    { transcript := "lo", confidence := 0, isFinal := false }] }).transcript =
      "hello" :=
  ⟨((onresult_transcript
      { isListening := true, transcript := "", error := none, isSupported := true, confidence := 0 }
      { resultIndex := 1
        results := [{ transcript := "send", confidence := 0.9, isFinal := true },
                    { transcript := "hello", confidence := 0.8, isFinal := true },
                    { transcript := " wor", confidence := 0, isFinal := false }] }).1
      (by decide)).trans rfl,
    ((onresult_transcript
      { isListening := true, transcript := "", error := none, isSupported := true, confidence := 0 }
      { resultIndex := 0
        results := [{ transcript := "hel", confidence := 0, isFinal := false },
                    { transcript := "lo", confidence := 0, isFinal := false }] }).2.2
      (by simp [finalResults])).trans rfl⟩

/-- Claim C11, as stated, fails: when the capability is unsupported,
`startListening` changes `error`. -/
theorem unsupported_start_sets_error :
    (mountSession false).cells.isSupported = false ∧
    (mountSession false).cells.error = none ∧
    (startListening (mountSession false) false).cells.error =
      some "Speech recognition not supported in this browser" ∧
    (startListening (mountSession false) false).cells.error ≠ (mountSession false).cells.error := by
  decide

/-- Claim C11, amended. When `isSupported` is false, `startListening` sets
`error` to "Speech recognition not supported in this browser" and changes
nothing else: `isListening`, `transcript` and `confidence` are as before, no
call is made on the recognition object and no timer is armed.  When
`isSupported` is true and `isListening` is true, `startListening` changes
nothing at all. -/
theorem startListening_without_effect (s : CaptureSession) (startThrows : Bool) :
    (s.cells.isSupported = false →
      startListening s startThrows =
        { s with
          cells := { s.cells with
                     error := some "Speech recognition not supported in this browser" } } ∧
      (startListening s startThrows).cells.isListening = s.cells.isListening ∧
      (startListening s startThrows).cells.transcript = s.cells.transcript ∧
      (startListening s startThrows).cells.confidence = s.cells.confidence ∧
      (startListening s startThrows).calls = s.calls ∧
      (startListening s startThrows).timers = s.timers ∧
      (startListening s startThrows).timeoutRef = s.timeoutRef) ∧
    (s.cells.isSupported = true → s.cells.isListening = true →
      startListening s startThrows = s) := by
  refine ⟨fun h => ?_, fun hs hl => ?_⟩
  · have hstart : startListening s startThrows =
        { s with
          cells := { s.cells with
                     error := some "Speech recognition not supported in this browser" } } := by
      simp [startListening, h]
    rw [hstart]
    exact ⟨rfl, rfl, rfl, rfl, rfl, rfl, rfl⟩
  · simp [startListening, hs, hl]

/-- Witness of claim C11, amended: a second `startListening` while the session
is listening changes nothing. -/
theorem startListening_without_effect_witness :
    (runCapture (mountSession true)
      [CaptureEvent.startListening false, CaptureEvent.onstart]).cells.isListening = true ∧
    startListening
        (runCapture (mountSession true) [CaptureEvent.startListening false, CaptureEvent.onstart])
        false =
      runCapture (mountSession true) [CaptureEvent.startListening false, CaptureEvent.onstart] ∧
    (startListening (mountSession false) true).calls = [] :=
  ⟨rfl,
    (startListening_without_effect
      (runCapture (mountSession true) [CaptureEvent.startListening false, CaptureEvent.onstart])
      false).2 rfl rfl,
    ((startListening_without_effect (mountSession false) true).1 rfl).2.2.2.2.1⟩

/-- Claim C12 against the code. The callback that `startListening` passes to
`setTimeout` tests the `isListening` of its own closure, which is false
whenever a timer is armed; so in every state reached from the mounted hook a
firing timer makes no call on the recognition object and changes no state
cell.  In particular, in a session that was started by `startListening`, is
listening and still has its timer pending, the timer fires without a call of
`stop` and the session goes on listening. -/
theorem timeout_never_calls_stop (supported : Bool) (events : List CaptureEvent) (handle : Nat) :
    (captureStep (runCapture (mountSession supported) events)
      (CaptureEvent.timeoutFires handle)).calls =
      (runCapture (mountSession supported) events).calls ∧
    (captureStep (runCapture (mountSession supported) events)
      (CaptureEvent.timeoutFires handle)).cells =
      (runCapture (mountSession supported) events).cells ∧
    (runCapture (mountSession true)
      [CaptureEvent.startListening false, CaptureEvent.onstart]).cells.isListening = true ∧
    (runCapture (mountSession true)
      [CaptureEvent.startListening false, CaptureEvent.onstart]).timers =
      [{ handle := 1, delay := 10000, isListening := false }] ∧
    (runCapture (mountSession true)
      [CaptureEvent.startListening false, CaptureEvent.onstart,
        CaptureEvent.timeoutFires 1]).calls = [RecognitionCall.start] ∧
    (runCapture (mountSession true)
      [CaptureEvent.startListening false, CaptureEvent.onstart,
        CaptureEvent.timeoutFires 1]).cells.isListening = true := by
  have hstale : TimersStale (runCapture (mountSession supported) events) :=
    runCapture_timersStale _ events (by intro t ht; simp [mountSession] at ht)
  obtain ⟨h1, h2⟩ := timeoutFires_of_timersStale _ handle hstale
  exact ⟨h1, h2, rfl, rfl, rfl, rfl⟩

/-- Claim C13. After `resetTranscript`, and after a `startListening` that
starts a session (supported, not yet listening), every sequence of steps in
which no `result` event has a result marked final keeps `confidence` at 0 at
every point, and the dispatching effect run on the transcript and confidence
reached at its end, whether or not the session is still listening, leaves the
dispatcher as it was: no classification request, whatever the transcript is. -/
theorem interim_speech_never_dispatched (s : CaptureSession) (startThrows : Bool)
    (events : List CaptureEvent) (st : VoiceCommandState) (l : Bool)
    (h : ∀ e ∈ events, hasFinalResult e = false) :
    (∀ n, (runCapture (resetTranscript s) (events.take n)).cells.confidence = 0) ∧
    dispatchEffect st (runCapture (resetTranscript s) events).cells.transcript l
      (runCapture (resetTranscript s) events).cells.confidence = st ∧
    (s.cells.isSupported = true → s.recognition = true → s.cells.isListening = false →
      (∀ n, (runCapture (startListening s startThrows) (events.take n)).cells.confidence = 0) ∧
      dispatchEffect st (runCapture (startListening s startThrows) events).cells.transcript l
        (runCapture (startListening s startThrows) events).cells.confidence = st) := by
  have htake : ∀ n, ∀ e ∈ events.take n, hasFinalResult e = false :=
    fun n e he => h e (List.mem_of_mem_take he)
  have hreset : (resetTranscript s).cells.confidence = 0 := rfl
  refine ⟨fun n => runCapture_confidence_zero _ _ hreset (htake n), ?_, ?_⟩
  · rw [runCapture_confidence_zero _ _ hreset h]
    exact dispatchEffect_confidence_zero st _ l
  · intro hs hr hl
    have hstart : (startListening s startThrows).cells.confidence = 0 := by
      simp only [startListening, hs, hr, hl]
      cases startThrows <;> rfl
    refine ⟨fun n => runCapture_confidence_zero _ _ hstart (htake n), ?_⟩
    rw [runCapture_confidence_zero _ _ hstart h]
    exact dispatchEffect_confidence_zero st _ l

/-- Witness of claim C13: a session in which only the interim results "send"
and "send 5 ETH" arrive ends with that transcript at confidence 0, and nothing
is dispatched. -/
theorem interim_speech_never_dispatched_witness :
    (runCapture (startListening (mountSession true) false)
      [CaptureEvent.onstart,
        CaptureEvent.onresult
          { resultIndex := 0
            results := [{ transcript := "send", confidence := 0, isFinal := false }] },
        CaptureEvent.onresult
          { resultIndex := 0
            results := [{ transcript := "send 5 ETH", confidence := 0, isFinal := false }] },
        CaptureEvent.onend]).cells.transcript = "send 5 ETH" ∧
    dispatchEffect { isProcessing := false, lastCommand := "", requests := [], calls := [] }
      (runCapture (startListening (mountSession true) false)
        [CaptureEvent.onstart,
          CaptureEvent.onresult
            { resultIndex := 0
              results := [{ transcript := "send", confidence := 0, isFinal := false }] },
          CaptureEvent.onresult
            { resultIndex := 0
              results := [{ transcript := "send 5 ETH", confidence := 0, isFinal := false }] },
          CaptureEvent.onend]).cells.transcript false
      (runCapture (startListening (mountSession true) false)
        [CaptureEvent.onstart,
          CaptureEvent.onresult
            { resultIndex := 0
              results := [{ transcript := "send", confidence := 0, isFinal := false }] },
          CaptureEvent.onresult
            { resultIndex := 0
              results := [{ transcript := "send 5 ETH", confidence := 0, isFinal := false }] },
          CaptureEvent.onend]).cells.confidence =
      { isProcessing := false, lastCommand := "", requests := [], calls := [] } :=
  ⟨rfl,
    ((interim_speech_never_dispatched (mountSession true) false
      [CaptureEvent.onstart,
        CaptureEvent.onresult
          { resultIndex := 0
            results := [{ transcript := "send", confidence := 0, isFinal := false }] },
        CaptureEvent.onresult
          { resultIndex := 0
            results := [{ transcript := "send 5 ETH", confidence := 0, isFinal := false }] },
        CaptureEvent.onend]
      { isProcessing := false, lastCommand := "", requests := [], calls := [] } false
      (by
        intro e he
        simp only [List.mem_cons, List.mem_singleton, List.not_mem_nil, or_false] at he
        rcases he with he | he | he | he <;> rw [he] <;> rfl)).2.2 rfl rfl rfl).2⟩

end WalletAssistant
